import Mathlib

/-!
Formal model of the Pishti card-game engine (game.go, card.go) and proofs
about its specified properties.

The Go engine is embedded shallowly:
* `*Card` slots become `Option Card`; Go slices become Lean lists whose
  lengths are maintained by construction (`List.set` preserves length).
* The engine's `rand.Rand` source is externalized: `shuffle` receives the
  sequence of `Intn 52` results as a function `Nat → Nat`, and `cpuPlays`
  receives the single `Intn n` draw its random fallback may consume.
* Sound-effect calls (`PlaySound`) are external fire-and-forget
  notifications with no effect on engine state and are omitted.
* Mutating methods become pure state transformers `Casino → Casino`
  (returning `Bool × Casino` where the Go method returns a `bool`).
-/

/-- A playing card (card.go `Card`): face, suit, and the icon identifier. -/
structure Card where
  face : String
  suit : String
  iconPath : String
deriving DecidableEq, Repr

instance : Inhabited Card := ⟨⟨"", "", ""⟩⟩

/-- card.go `NewCard`. -/
def NewCard (cardFace cardSuit iconPath : String) : Card :=
  { face := cardFace, suit := cardSuit, iconPath := iconPath }

/-- card.go `GetFace`. -/
def Card.GetFace (c : Card) : String := c.face

/-- card.go `GetSuit`. -/
def Card.GetSuit (c : Card) : String := c.suit

/-- game.go `GameState`. -/
inductive GameState where
  | StateNotStarted
  | StatePlayerTurn
  | StateCPUTurn
  | StateGameOver
  | StatePileCaptured
deriving DecidableEq, Repr

/-- game.go `PlayerID`. -/
inductive PlayerID where
  | NoPlayer
  | Player
  | CPU
deriving DecidableEq, Repr

/-- game.go `GameLevel`. -/
inductive GameLevel where
  | LevelNotSelected
  | LevelBeginner
  | LevelIntermediate
  | LevelAdvanced
deriving DecidableEq, Repr

open GameState PlayerID GameLevel

def DeckSize : Nat := 52

def HandSize : Nat := 4

/-- game.go `UndoState`: the single undo snapshot. -/
structure UndoState where
  playerPoint : Nat
  cpuPoint : Nat
  lastScorer : PlayerID
  cardsCollectedByPlayer : Nat
  cardsCollectedByCPU : Nat
  cardsOnTable : Nat
  tableCards : List (Option Card)
  playerCards : List (Option Card)
  initialHiddenCards : Option (List Card)
  safeDiscardCandidate : Option Card
  isInitialPile : Bool
  cpuCards : List (Option Card)
  currentHandMemory : List (Option Card)
  currentHandMemoryLength : Nat
deriving DecidableEq, Repr

/-- The Go zero value of `UndoState` (nil slices become empty lists). -/
def UndoState.zero : UndoState :=
  { playerPoint := 0, cpuPoint := 0, lastScorer := NoPlayer,
    cardsCollectedByPlayer := 0, cardsCollectedByCPU := 0, cardsOnTable := 0,
    tableCards := [], playerCards := [], initialHiddenCards := none,
    safeDiscardCandidate := none, isInitialPile := false, cpuCards := [],
    currentHandMemory := [], currentHandMemoryLength := 0 }

/-- game.go `Casino`: all mutable engine state.  The immutable `faces` and
`suits` configuration lists and the externalized `rng`/`mu` fields are not
part of the state. -/
structure Casino where
  cpuCards : List (Option Card)
  allPlayedCardsMemory : List (Option Card)
  currentHandMemory : List (Option Card)
  deck : List Card
  playerCards : List (Option Card)
  tableCards : List (Option Card)
  cardsCollectedByPlayer : Nat
  cardsCollectedByCPU : Nat
  cardsOnTable : Nat
  currentHandMemoryLength : Nat
  allPlayedCardsMemoryLength : Nat
  cpuPoint : Nat
  currentCard : Nat
  gameState : GameState
  initialHiddenCards : Option (List Card)
  safeDiscardCandidate : Option Card
  initialPileCaptureMsg : String
  lastPlayedCPUCardIdx : Int
  lastPlayedPlayerCard : Int
  lastScorer : PlayerID
  level : GameLevel
  playerPoint : Nat
  canUndo : Bool
  isInitialPile : Bool
  undoState : UndoState
deriving DecidableEq, Repr

/-- The 13 face names held in `Casino.faces`. -/
def faces : List String :=
  ["Ace", "Deuce", "Three", "Four", "Five", "Six", "Seven", "Eight", "Nine",
   "Ten", "Jack", "Queen", "King"]

/-- The 4 suit names held in `Casino.suits`. -/
def suits : List String :=
  ["Hearts", "Diamonds", "Clubs", "Spades"]

/-- game.go `NewCasino`: fresh engine with the unshuffled 52-card deck. -/
def NewCasino : Casino :=
  { cpuCards := List.replicate HandSize none,
    allPlayedCardsMemory := List.replicate DeckSize none,
    currentHandMemory := List.replicate DeckSize none,
    deck := (List.range DeckSize).map
      (fun i => NewCard (faces.getD (i % 13) "") (suits.getD (i / 13) "") (toString (i + 1))),
    playerCards := List.replicate HandSize none,
    tableCards := List.replicate DeckSize none,
    cardsCollectedByPlayer := 0, cardsCollectedByCPU := 0, cardsOnTable := 0,
    currentHandMemoryLength := 0, allPlayedCardsMemoryLength := 0,
    cpuPoint := 0, currentCard := 0, gameState := StateNotStarted,
    initialHiddenCards := none, safeDiscardCandidate := none,
    initialPileCaptureMsg := "", lastPlayedCPUCardIdx := 0,
    lastPlayedPlayerCard := 0, lastScorer := NoPlayer,
    level := LevelNotSelected, playerPoint := 0, canUndo := false,
    isInitialPile := false, undoState := UndoState.zero }

/-- Swap two positions of a list (the body of the shuffle loop). -/
def swapAt' (d : List Card) (i j : Nat) : List Card :=
  match d.get? i, d.get? j with
  | some a, some b => (d.set i b).set j a
  | _, _ => d

/-- game.go `shuffle`: 52 swaps `deck[i] ↔ deck[rng.Intn 52]`; the draw
results are supplied as `swaps`. -/
def shuffle (swaps : Nat → Nat) (d : List Card) : List Card :=
  (List.range DeckSize).foldl (fun d i => swapAt' d i (swaps i)) d

/-- Semantics of Go's `copy(dst, src)`: overwrite the prefix of `dst` with
`src`, keeping the tail of `dst`. -/
def goCopy {α : Type} (dst src : List α) : List α :=
  src.take dst.length ++ dst.drop (min src.length dst.length)

/-- The fuel-indexed body of the undo nil-out loop: from index `i`, set
entries to `none` until the first already-`none` entry (or the end). -/
def nilOutFromFuel : Nat → List (Option Card) → Nat → List (Option Card)
  | 0, l, _ => l
  | fuel + 1, l, i =>
    match l.getD i none with
    | none => l
    | some _ => nilOutFromFuel fuel (l.set i none) (i + 1)

/-- game.go undo loop `for i := start; ...; if l[i] == nil break; l[i] = nil`. -/
def nilOutFrom (l : List (Option Card)) (i : Nat) : List (Option Card) :=
  nilOutFromFuel l.length l i

/-- game.go `deal`: deal 4 cards to the player and 4 to the CPU. -/
def deal (c : Casino) : Casino :=
  if c.currentCard ≥ DeckSize then c
  else
    let c :=
      if !c.isInitialPile then
        let m := (List.range c.currentHandMemoryLength).foldl
          (fun m i => m.set i none) c.currentHandMemory
        { c with safeDiscardCandidate := none, currentHandMemory := m,
                 currentHandMemoryLength := 0 }
      else c
    let p := (List.range HandSize).foldl
      (fun (acc : List (Option Card) × Nat) i =>
        (acc.1.set i (some (c.deck.getD acc.2 default)), acc.2 + 1))
      (c.playerCards, c.currentCard)
    let q := (List.range HandSize).foldl
      (fun (acc : List (Option Card) × Nat) i =>
        (acc.1.set i (some (c.deck.getD acc.2 default)), acc.2 + 1))
      (c.cpuCards, p.2)
    { c with playerCards := p.1, cpuCards := q.1, currentCard := q.2 }

/-- game.go `resetGameInternal`: clear all game-specific state. -/
def resetGameInternal (c : Casino) : Casino :=
  { c with gameState := StateNotStarted, level := LevelNotSelected,
           cardsCollectedByPlayer := 0, cardsCollectedByCPU := 0,
           cardsOnTable := 0, currentHandMemoryLength := 0,
           allPlayedCardsMemoryLength := 0,
           allPlayedCardsMemory := c.allPlayedCardsMemory.map (fun _ => none),
           cpuPoint := 0, playerPoint := 0, lastPlayedCPUCardIdx := -1,
           lastPlayedPlayerCard := -1, lastScorer := NoPlayer,
           isInitialPile := false, canUndo := false, currentCard := 0,
           safeDiscardCandidate := none, initialHiddenCards := none,
           initialPileCaptureMsg := "",
           playerCards := c.playerCards.map (fun _ => none),
           cpuCards := c.cpuCards.map (fun _ => none),
           tableCards := c.tableCards.map (fun _ => none),
           currentHandMemory := c.currentHandMemory.map (fun _ => none) }

/-- game.go `SetLevel`.  The Go bounds check `level >= LevelNotSelected &&
level <= LevelAdvanced` accepts every value of the `GameLevel` enum, so the
guard is always taken here. -/
def SetLevel (level : GameLevel) (c : Casino) : Casino :=
  { c with level := level }

/-- game.go `StartGame`: returns the Go method's `bool` alongside the new
state. -/
def StartGame (swaps : Nat → Nat) (c : Casino) : Bool × Casino :=
  let c0 := if c.gameState ≠ StateNotStarted then resetGameInternal c else c
  if c0.level = LevelNotSelected then (false, c0)
  else
    let c1 := { c0 with currentCard := 0 }
    let c2 := { c1 with deck := shuffle swaps c1.deck }
    let c3 := { c2 with playerPoint := 0, cpuPoint := 0,
                        cardsCollectedByPlayer := 0, safeDiscardCandidate := none,
                        initialHiddenCards := none, cardsCollectedByCPU := 0,
                        cardsOnTable := HandSize, currentHandMemoryLength := 0,
                        allPlayedCardsMemoryLength := 0,
                        gameState := StatePlayerTurn, isInitialPile := true,
                        lastPlayedCPUCardIdx := -1, lastPlayedPlayerCard := -1 }
    let dk : List Card := c3.deck
    let t : List (Option Card) := (List.range HandSize).foldl
      (fun (t : List (Option Card)) i => t.set i (some (dk.getD i default)))
      c3.tableCards
    let c4 := { c3 with tableCards := t }
    let hidden : List Card :=
      [(c4.tableCards.getD 0 none).getD default,
       (c4.tableCards.getD 1 none).getD default,
       (c4.tableCards.getD 2 none).getD default]
    let c5 : Casino :=
      if 3 ≤ c4.tableCards.length then { c4 with initialHiddenCards := some hidden }
      else c4
    let c6 := { c5 with currentCard := HandSize }
    (true, deal c6)

/-- game.go `ResetGame` (public wrapper of `resetGameInternal`). -/
def ResetGame (c : Casino) : Casino :=
  resetGameInternal c

/-- Face of an optional card.  In Go the pile entries below `cardsOnTable`
are always non-nil; a `none` here would be a nil dereference there. -/
def optFace (oc : Option Card) : String :=
  match oc with
  | some cd => cd.GetFace
  | none => ""

/-- The loop body of game.go `pointCalculator`: the running `point` after
one switch on `tableCards[i]`. -/
def pointStep (point : Nat) (card : Option Card) : Nat :=
  match card with
  | none => point
  | some card =>
    match card.GetFace with
    | "Jack" => point + 1
    | "Ace" => point + 1
    | "Deuce" => if card.GetSuit = "Clubs" then point + 2 else point
    | "Ten" => if card.GetSuit = "Diamonds" then point + 3 else point
    | _ => point

/-- game.go `pointCalculator`: points of the cards currently on the table,
indices `0 ≤ i < cardsOnTable`. -/
def pointCalculator (c : Casino) : Nat :=
  (List.range c.cardsOnTable).foldl
    (fun point i => pointStep point (c.tableCards.getD i none)) 0

/-- game.go `getCardValue`: point value of a single (possibly nil) card. -/
def getCardValue (card : Option Card) : Nat :=
  match card with
  | none => 0
  | some card =>
    match card.GetFace with
    | "Jack" => 1
    | "Ace" => 1
    | "Deuce" => if card.GetSuit = "Clubs" then 2 else 0
    | "Ten" => if card.GetSuit = "Diamonds" then 3 else 0
    | _ => 0

/-- The AI-memory update at the top of game.go `processTurn`. -/
def updateMemory (c : Casino) (playedCard : Card) : Casino :=
  match c.level with
  | LevelIntermediate =>
    if c.currentHandMemoryLength < c.currentHandMemory.length then
      { c with currentHandMemory :=
                 c.currentHandMemory.set c.currentHandMemoryLength (some playedCard),
               currentHandMemoryLength := c.currentHandMemoryLength + 1 }
    else c
  | LevelAdvanced =>
    if c.allPlayedCardsMemoryLength < c.allPlayedCardsMemory.length then
      { c with allPlayedCardsMemory :=
                 c.allPlayedCardsMemory.set c.allPlayedCardsMemoryLength (some playedCard),
               allPlayedCardsMemoryLength := c.allPlayedCardsMemoryLength + 1 }
    else c
  | _ => c

/-- The one-time message naming the three initial hidden cards. -/
def hiddenMsg (hidden : List Card) : String :=
  "You captured the hidden cards: " ++ (hidden.getD 0 default).GetFace ++ ", " ++
    (hidden.getD 1 default).GetFace ++ ", and " ++ (hidden.getD 2 default).GetFace ++ "!"

/-- The no-capture tail of game.go `processTurn`: hand the turn over. -/
def endTurn (c : Casino) (playerID : PlayerID) : Casino :=
  if playerID = Player then { c with gameState := StateCPUTurn }
  else { c with gameState := StatePlayerTurn }

/-- The capture branch of game.go `processTurn` (the played card is already
on the pile; `top`/`second` are the pile's top two entries). -/
def captureBranch (c : Casino) (top second : Option Card) (playerID : PlayerID) : Casino :=
  let c1 : Casino :=
    if playerID = Player ∧ optFace top = "Jack" then
      { c with safeDiscardCandidate := second }
    else c
  let c2 : Casino :=
    match c1.initialHiddenCards with
    | some hidden =>
      let ca : Casino :=
        if playerID = Player then { c1 with initialPileCaptureMsg := hiddenMsg hidden }
        else c1
      { ca with initialHiddenCards := none }
    | none => c1
  let pts : Nat × Nat :=
    if c2.cardsOnTable = 2 ∧ optFace top = optFace second then
      (if optFace top = "Jack" then (20, 2) else (10, 2))
    else (pointCalculator c2, c2.cardsOnTable)
  let c3 : Casino :=
    if playerID = Player then
      { c2 with playerPoint := c2.playerPoint + pts.1,
                cardsCollectedByPlayer := c2.cardsCollectedByPlayer + pts.2 }
    else
      { c2 with cpuPoint := c2.cpuPoint + pts.1,
                cardsCollectedByCPU := c2.cardsCollectedByCPU + pts.2 }
  { c3 with gameState := StatePileCaptured, lastScorer := playerID }

/-- game.go `processTurn`: place the played card on the pile and resolve
capture or turn hand-over.  The Go nil-check on `playedCard` cannot fire
here because both callers only pass present cards. -/
def processTurn (c : Casino) (playedCard : Card) (playerID : PlayerID) : Casino :=
  let c := updateMemory c playedCard
  let c := { c with tableCards := c.tableCards.set c.cardsOnTable (some playedCard),
                    cardsOnTable := c.cardsOnTable + 1 }
  if c.cardsOnTable > 1 then
    let top := c.tableCards.getD (c.cardsOnTable - 1) none
    let second := c.tableCards.getD (c.cardsOnTable - 2) none
    if optFace top = optFace second ∨ optFace top = "Jack" then
      captureBranch c top second playerID
    else endTurn c playerID
  else endTurn c playerID

/-- The snapshot game.go `playerPlays` stores in `c.undoState`. -/
def mkUndoSnapshot (c : Casino) : UndoState :=
  { playerPoint := c.playerPoint, cpuPoint := c.cpuPoint, lastScorer := c.lastScorer,
    cardsCollectedByPlayer := c.cardsCollectedByPlayer,
    cardsCollectedByCPU := c.cardsCollectedByCPU,
    cardsOnTable := c.cardsOnTable,
    tableCards := c.tableCards.take c.cardsOnTable,
    playerCards := c.playerCards, cpuCards := c.cpuCards,
    initialHiddenCards := c.initialHiddenCards,
    safeDiscardCandidate := c.safeDiscardCandidate,
    isInitialPile := c.isInitialPile,
    currentHandMemory := c.currentHandMemory.take c.currentHandMemoryLength,
    currentHandMemoryLength := c.currentHandMemoryLength }

/-- game.go `playerPlays`.  Note the undo snapshot is saved (at non-top
levels) before the empty-slot check, and no game-state check is made. -/
def playerPlays (c : Casino) (playedCardIdx : Nat) : Casino :=
  let c := if c.level ≠ LevelAdvanced then { c with undoState := mkUndoSnapshot c } else c
  match c.playerCards.getD playedCardIdx none with
  | none => c
  | some playerPlayedCard =>
    let c := { c with lastPlayedPlayerCard := (playedCardIdx : Int),
                      playerCards := c.playerCards.set playedCardIdx none }
    let c := processTurn c playerPlayedCard Player
    if c.isInitialPile then { c with isInitialPile := false } else c

/-- game.go `playerPlays` with Go's array-indexing partiality made explicit:
`none` models the runtime panic `index out of range` that
`c.playerCards[playedCardIdx]` raises when the index is not a valid slot. -/
def playerPlaysChecked (c : Casino) (playedCardIdx : Nat) : Option Casino :=
  if playedCardIdx < c.playerCards.length then some (playerPlays c playedCardIdx)
  else none

/-- game.go `findMatchingCard`: first CPU-hand slot holding `face`, else -1. -/
def findMatchingCard (cpuCards : List (Option Card)) (face : String) : Int :=
  match cpuCards.findIdx? (fun card =>
      match card with
      | some card => card.GetFace = face
      | none => false) with
  | some i => (i : Int)
  | none => -1

/-- game.go `findJack`: first CPU-hand slot holding a Jack, else -1. -/
def findJack (cpuCards : List (Option Card)) : Int :=
  match cpuCards.findIdx? (fun card =>
      match card with
      | some card => card.GetFace = "Jack"
      | none => false) with
  | some i => (i : Int)
  | none => -1

/-- game.go `findRandomNonJack`: a random non-Jack slot; the rng draw
`rng.Intn len` is supplied as `r % len`. -/
def findRandomNonJack (r : Nat) (cpuCards : List (Option Card)) : Int :=
  let cardsToPlay := (List.range HandSize).filter (fun i =>
    match cpuCards.getD i none with
    | some card => card.GetFace ≠ "Jack"
    | none => false)
  if cardsToPlay.length > 0 then (cardsToPlay.getD (r % cardsToPlay.length) 0 : Int)
  else -1

/-- game.go `tryCaptureMove`: match the pile's top card, else play a Jack. -/
def tryCaptureMove (c : Casino) : Int :=
  if c.cardsOnTable > 0 then
    let topCardFace := optFace (c.tableCards.getD (c.cardsOnTable - 1) none)
    let cardIdx := findMatchingCard c.cpuCards topCardFace
    if cardIdx ≠ -1 then cardIdx
    else
      let cardIdx := findJack c.cpuCards
      if cardIdx ≠ -1 then cardIdx else -1
  else -1

/-- game.go `trySafeDiscard`. -/
def trySafeDiscard (c : Casino) : Int :=
  match c.safeDiscardCandidate with
  | some sd =>
    let cardIdx := findMatchingCard c.cpuCards sd.GetFace
    if cardIdx ≠ -1 then cardIdx else -1
  | none => -1

/-- game.go `cpuActionBeginner`. -/
def cpuActionBeginner (c : Casino) : Int :=
  let cardIdx := tryCaptureMove c
  if cardIdx ≠ -1 then cardIdx else -1

/-- The face-occurrence count the Intermediate AI reads from its map
`faceCounts` (hand plus current-hand memory, Jacks never inserted). -/
def faceCount (c : Casino) (face : String) : Nat :=
  if face = "Jack" then 0
  else
    (c.cpuCards.countP (fun card =>
      match card with
      | some card => card.GetFace ≠ "Jack" ∧ card.GetFace = face
      | none => false)) +
    ((c.currentHandMemory.take c.currentHandMemoryLength).countP (fun card =>
      match card with
      | some card => card.GetFace ≠ "Jack" ∧ card.GetFace = face
      | none => false))

/-- The most-common-face scan of game.go `cpuActionIntermediate`:
fold over the CPU hand tracking `(maxCount, mostCommonFace)`. -/
def mostCommonFaceScan (c : Casino) : String :=
  (c.cpuCards.foldl
    (fun (acc : Nat × String) card =>
      match card with
      | some card =>
        if faceCount c card.GetFace > acc.1 then (faceCount c card.GetFace, card.GetFace)
        else acc
      | none => acc)
    (1, "")).2

/-- game.go `cpuActionIntermediate`. -/
def cpuActionIntermediate (c : Casino) : Int :=
  let cardIdx := tryCaptureMove c
  if cardIdx ≠ -1 then cardIdx
  else
    let cardIdx := trySafeDiscard c
    if cardIdx ≠ -1 then cardIdx
    else
      let mostCommonFace := mostCommonFaceScan c
      if mostCommonFace ≠ "" then findMatchingCard c.cpuCards mostCommonFace
      else -1

/-- The match number the Advanced AI computes for hand slot `i`. -/
def matchNumber (c : Casino) (i : Nat) : Nat :=
  match c.cpuCards.getD i none with
  | none => 0
  | some card =>
    if card.GetFace = "Jack" then 0
    else
      ((c.allPlayedCardsMemory.take c.allPlayedCardsMemoryLength).countP (fun m =>
        match m with
        | some m => m.GetFace = card.GetFace
        | none => false)) +
      ((List.range HandSize).countP (fun j =>
        if i = j then false
        else
          match c.cpuCards.getD j none with
          | some other => other.GetFace = card.GetFace
          | none => false))

/-- The greatest-match-number scan of game.go `cpuActionAdvanced`. -/
def bestMatchScan (c : Casino) : Nat × Int :=
  (List.range HandSize).foldl
    (fun (acc : Nat × Int) i =>
      match c.cpuCards.getD i none with
      | none => acc
      | some card =>
        if card.GetFace = "Jack" then acc
        else if matchNumber c i > acc.1 then (matchNumber c i, (i : Int))
        else acc)
    (0, -1)

/-- The least-value scan of game.go `cpuActionAdvanced`. -/
def leastValueScan (c : Casino) : Nat × Int :=
  (List.range HandSize).foldl
    (fun (acc : Nat × Int) i =>
      match c.cpuCards.getD i none with
      | none => acc
      | some card =>
        if card.GetFace = "Jack" then acc
        else if getCardValue (some card) < acc.1 then (getCardValue (some card), (i : Int))
        else acc)
    (100, -1)

/-- game.go `cpuActionAdvanced`. -/
def cpuActionAdvanced (c : Casino) : Int :=
  let cardIdx := tryCaptureMove c
  if cardIdx ≠ -1 then cardIdx
  else
    let cardIdx := trySafeDiscard c
    if cardIdx ≠ -1 then cardIdx
    else
      let best := bestMatchScan c
      if best.1 ≠ 0 ∧ best.2 ≠ -1 then best.2
      else
        let least := leastValueScan c
        if least.2 ≠ -1 then least.2 else -1

/-- game.go `CPUaction`: level dispatch plus the generic fallback. -/
def CPUaction (r : Nat) (c : Casino) : Int :=
  let cardIdx :=
    match c.level with
    | LevelBeginner => cpuActionBeginner c
    | LevelIntermediate => cpuActionIntermediate c
    | LevelAdvanced => cpuActionAdvanced c
    | LevelNotSelected => -1
  if cardIdx = -1 then
    let cardIdx := findRandomNonJack r c.cpuCards
    if cardIdx ≠ -1 then cardIdx
    else
      match (List.range HandSize).find? (fun i => (c.cpuCards.getD i none).isSome) with
      | some i => (i : Int)
      | none => -1
  else cardIdx

/-- game.go `cpuPlays`; `r` supplies the fallback's random draw. -/
def cpuPlays (c : Casino) (r : Nat) : Casino :=
  let hasCards := c.cpuCards.any (fun card => card.isSome)
  if !hasCards then c
  else
    let idx0 := CPUaction r c
    let idx :=
      if idx0 = -1 then
        match (List.range HandSize).find? (fun i => (c.cpuCards.getD i none).isSome) with
        | some i => (i : Int)
        | none => idx0
      else idx0
    let c := { c with lastPlayedCPUCardIdx := idx }
    match c.cpuCards.getD idx.toNat none with
    | some cpuPlayedCard =>
      let c := { c with cpuCards := c.cpuCards.set idx.toNat none }
      let c := processTurn c cpuPlayedCard CPU
      { c with canUndo := true }
    | none => c

/-- game.go `finalizeCapture`. -/
def finalizeCapture (c : Casino) : Casino :=
  let c := { c with cardsOnTable := 0 }
  if c.gameState ≠ StateGameOver then { c with gameState := StatePlayerTurn }
  else c

/-- game.go `isHandFinished`: the player has no cards left. -/
def isHandFinished (c : Casino) : Bool :=
  c.playerCards.all (fun card => card.isNone)

/-- game.go `awardFinalPile`. -/
def awardFinalPile (c : Casino) : Casino :=
  if c.cardsOnTable ≤ 0 then c
  else
    let pointsFromLastPile := pointCalculator c
    let c :=
      if c.lastScorer = Player then
        { c with playerPoint := c.playerPoint + pointsFromLastPile,
                 cardsCollectedByPlayer := c.cardsCollectedByPlayer + c.cardsOnTable }
      else
        { c with cpuPoint := c.cpuPoint + pointsFromLastPile,
                 cardsCollectedByCPU := c.cardsCollectedByCPU + c.cardsOnTable }
    { c with cardsOnTable := 0 }

/-- game.go `handleEndOfGame`. -/
def handleEndOfGame (c : Casino) : Casino :=
  let c := awardFinalPile c
  let c := { c with gameState := StateGameOver }
  if c.cardsCollectedByPlayer > c.cardsCollectedByCPU then
    { c with playerPoint := c.playerPoint + 3 }
  else if c.cardsCollectedByCPU > c.cardsCollectedByPlayer then
    { c with cpuPoint := c.cpuPoint + 3 }
  else c

/-- game.go `handleEndOfHand`. -/
def handleEndOfHand (c : Casino) : Casino :=
  let c := deal c
  { c with gameState := StatePlayerTurn }

/-- game.go `checkEndOfHand`. -/
def checkEndOfHand (c : Casino) : Casino :=
  if c.gameState = StateGameOver then c
  else if isHandFinished c then
    if c.currentCard = DeckSize then handleEndOfGame c
    else handleEndOfHand c
  else c

/-- game.go `undoImplementation`. -/
def undoImplementation (c : Casino) : Bool × Casino :=
  if c.canUndo = false then (false, c)
  else
    let u := c.undoState
    let c1 := { c with playerPoint := u.playerPoint, cpuPoint := u.cpuPoint,
                       lastScorer := u.lastScorer,
                       cardsCollectedByPlayer := u.cardsCollectedByPlayer,
                       cardsCollectedByCPU := u.cardsCollectedByCPU,
                       cardsOnTable := u.cardsOnTable }
    let c2 := { c1 with tableCards := nilOutFrom (goCopy c1.tableCards u.tableCards) c1.cardsOnTable }
    let c3 := { c2 with playerCards := goCopy c2.playerCards u.playerCards,
                        cpuCards := goCopy c2.cpuCards u.cpuCards,
                        initialHiddenCards := u.initialHiddenCards,
                        safeDiscardCandidate := u.safeDiscardCandidate,
                        isInitialPile := u.isInitialPile,
                        currentHandMemoryLength := u.currentHandMemoryLength }
    let c4 := { c3 with currentHandMemory := nilOutFrom (goCopy c3.currentHandMemory u.currentHandMemory) c3.currentHandMemoryLength }
    (true, { c4 with canUndo := false })

/-- The card-conservation quantity of spec §8: undealt deck cards, occupied
hand slots, table-pile count, and both collection counters. -/
def conservationSum (c : Casino) : Nat :=
  (DeckSize - c.currentCard) + c.playerCards.countP (fun card => card.isSome) +
    c.cpuCards.countP (fun card => card.isSome) + c.cardsOnTable +
    c.cardsCollectedByPlayer + c.cardsCollectedByCPU

/-- Shuffle draws `rng.Intn 52 = i` at step `i`: the identity permutation. -/
def identSwaps : Nat → Nat := fun i => i

/-- Shuffle draws that leave the deck in order except positions 4 and 16
swapped, so the player's first slot holds the Four of Diamonds. -/
def trickSwaps : Nat → Nat := fun i => if i = 4 then 16 else i

/-- Reachable trace, Beginner level, `trickSwaps` deck: game started. -/
def t1 : Casino := (StartGame trickSwaps (SetLevel LevelBeginner NewCasino)).2

/-- … the player plays slot 0 (Four of Diamonds on the Four of Hearts):
a capture of the whole 5-card pile. -/
def t2 : Casino := playerPlays t1 0

/-- … the capture is finalized. -/
def t3 : Casino := finalizeCapture t2

/-- … the player plays slot 1 (Six of Hearts), no capture. -/
def t4 : Casino := playerPlays t3 1

/-- … the CPU plays its Jack on the Six: a CPU capture. -/
def t5 : Casino := cpuPlays t4 0

/-- … the CPU's capture is finalized. -/
def t6 : Casino := finalizeCapture t5

/-- … the player plays slot 2, no capture. -/
def t7 : Casino := playerPlays t6 2

/-- … the CPU discards (random fallback, draw 0), no capture. -/
def t8 : Casino := cpuPlays t7 0

/-- … the player plays the last card of their hand, no capture. -/
def t9 : Casino := playerPlays t8 3

/-- … the CPU plays, no capture; the CPU still holds its Queen. -/
def t10 : Casino := cpuPlays t9 0

/-- … end-of-hand check: the player's hand is empty, so a new hand is
dealt — overwriting the Queen the CPU still holds. -/
def t11 : Casino := checkEndOfHand t10

/-- Reachable trace, Advanced level, identity deck: game started. -/
def a1 : Casino := (StartGame identSwaps (SetLevel LevelAdvanced NewCasino)).2

/-- … the player plays slot 0 (Five of Hearts), no capture. -/
def a2 : Casino := playerPlays a1 0

/-- … the CPU plays its Jack: a capture; `canUndo` is set. -/
def a3 : Casino := cpuPlays a2 0

/-- Reachable trace, Beginner level, identity deck: game started. -/
def b1 : Casino := (StartGame identSwaps (SetLevel LevelBeginner NewCasino)).2

/-- … the player plays slot 0 (Five of Hearts), no capture: CPU's turn. -/
def b2 : Casino := playerPlays b1 0

/-- … the CPU plays its Jack: a capture; the player's slot 0 is empty. -/
def b3 : Casino := cpuPlays b2 0

/-- Reachable state with a game in progress but the level cleared again
through the public `SetLevel` (its bounds check accepts `LevelNotSelected`). -/
def s9 : Casino := SetLevel LevelNotSelected b1

/-- Per-card point table exactly as the specification words it: +1 per
Jack, +1 per Ace, +2 for the Two of the minor suit (Clubs), +3 for the Ten
of the major suit (Diamonds), 0 otherwise.  Stated from the spec's words,
to be compared with the source's `pointCalculator`. -/
def specCardScore (card : Card) : Nat :=
  if card.GetFace = "Jack" then 1
  else if card.GetFace = "Ace" then 1
  else if card.GetFace = "Deuce" ∧ card.GetSuit = "Clubs" then 2
  else if card.GetFace = "Ten" ∧ card.GetSuit = "Diamonds" then 3
  else 0

/-- The contribution of one (possibly empty) pile slot under the spec's
per-card table. -/
def optScore (oc : Option Card) : Nat :=
  match oc with
  | none => 0
  | some card => specCardScore card

/-- The concrete pile of spec §8: one Ace, one Jack, the Two of Clubs and
the Ten of Diamonds on the table of a fresh engine. -/
def c8Example : Casino :=
  { NewCasino with
      tableCards :=
        [some (NewCard "Ace" "Spades" "40"), some (NewCard "Jack" "Hearts" "11"),
         some (NewCard "Deuce" "Clubs" "28"), some (NewCard "Ten" "Diamonds" "23")] ++
          List.replicate 48 none,
      cardsOnTable := 4 }

/-- The award a capture gives: `pts` points and `collected` cards credited
to the capturing side, the other side untouched. -/
def captureAward (c s : Casino) (playerID : PlayerID) (pts collected : Nat) : Prop :=
  if playerID = Player then
    s.playerPoint = c.playerPoint + pts ∧
    s.cardsCollectedByPlayer = c.cardsCollectedByPlayer + collected ∧
    s.cpuPoint = c.cpuPoint ∧ s.cardsCollectedByCPU = c.cardsCollectedByCPU
  else
    s.cpuPoint = c.cpuPoint + pts ∧
    s.cardsCollectedByCPU = c.cardsCollectedByCPU + collected ∧
    s.playerPoint = c.playerPoint ∧ s.cardsCollectedByPlayer = c.cardsCollectedByPlayer

/-- A one-card pile of a Seven with a matching Seven played on it. -/
def c7w : Casino :=
  { NewCasino with
      tableCards := [some (NewCard "Seven" "Hearts" "7")] ++ List.replicate 51 none,
      cardsOnTable := 1 }

set_option maxRecDepth 10000

/-- C1: the card-conservation invariant of spec §8 fails on the code.  In
the reachable state `t11` — Beginner level, fully turn-disciplined driving:
the player's opening capture earns them an extra turn (`finalizeCapture`
always yields `StatePlayerTurn`), so the player's hand empties while the
CPU still holds its Queen; the end-of-hand re-deal then overwrites that
Queen, and the conservation sum is 51, not 52, in a plain `StatePlayerTurn`
state. -/
theorem c1_conservation_violated_in_code :
    conservationSum t11 = 51 ∧ t11.gameState = StatePlayerTurn := by
  constructor <;> rfl

/-- C3: undo is not disabled at the top tier.  In the reachable Advanced
state `a3` (player played, CPU played and captured, `canUndo` was set
unconditionally by `cpuPlays`), `undoImplementation` returns success and
restores the never-saved zero snapshot: the CPU's 2 points and the 6-card
pile are wiped, contradicting "undo() returns failure and leaves all
engine state unchanged". -/
theorem c3_advanced_undo_not_disabled :
    a3.level = LevelAdvanced ∧ (undoImplementation a3).1 = true ∧
    a3.cpuPoint = 2 ∧ (undoImplementation a3).2.cpuPoint = 0 ∧
    a3.cardsOnTable = 6 ∧ (undoImplementation a3).2.cardsOnTable = 0 := by
  refine ⟨rfl, rfl, rfl, rfl, rfl, rfl⟩

/-- C6: `finalizeCapture` does not hand the turn to the scorer.  In the
reachable state `t5` the CPU has just captured (`lastScorer = CPU`,
`gameState = StatePileCaptured`), yet `finalizeCapture` transitions to
`StatePlayerTurn`, not `StateCPUTurn` — contradicting the claim and the
code's own comment that the player who just scored plays again. -/
theorem c6_finalize_ignores_scorer :
    t5.gameState = StatePileCaptured ∧ t5.lastScorer = CPU ∧
    (finalizeCapture t5).gameState = StatePlayerTurn := by
  refine ⟨rfl, rfl, rfl⟩

/-- C4 counterexample: out-of-turn plays are not no-ops.  `b2` is a
reachable state whose game state is `StateCPUTurn`, yet `playerPlays b2 1`
(an occupied slot) mutates the engine — the card is removed from the hand. -/
theorem c4_out_of_turn_play_mutates :
    b2.gameState = StateCPUTurn ∧ playerPlays b2 1 ≠ b2 :=
  ⟨rfl, fun h => absurd (congrArg (fun s => s.playerCards.getD 1 none) h) (by decide)⟩

/-- C5 counterexample: playing an empty slot is not a complete no-op.  In
the reachable state `b3` the player's slot 0 is empty, yet `playerPlays b3 0`
overwrites the retained undo snapshot (the snapshot is saved before the
empty-slot check at non-top levels). -/
theorem c5_empty_slot_play_rewrites_snapshot :
    b3.playerCards.getD 0 none = none ∧ playerPlays b3 0 ≠ b3 :=
  ⟨rfl, fun h => absurd (congrArg (fun s => s.undoState.playerCards.getD 0 none) h) (by decide)⟩

/-- C9 counterexample: `StartGame` without a level is not atomic.  `s9` is
reachable (Beginner game started, then `SetLevel LevelNotSelected`, which
the bounds check accepts); `StartGame` then returns failure but has reset
the whole engine first (`resetGameInternal` also clears the level, so the
level check always fails after a reset). -/
theorem c9_start_game_resets_despite_failure :
    s9.level = LevelNotSelected ∧ (StartGame identSwaps s9).1 = false ∧
    (StartGame identSwaps s9).2 ≠ s9 :=
  ⟨rfl, rfl, fun h => absurd (congrArg Casino.gameState h) (by decide)⟩

/-- C10 counterexample: `playerPlays` with an out-of-range index is not
defensively checked — in Go `c.playerCards[4]` panics (modelled by `none`)
even in the reachable started state `b1`. -/
theorem c10_out_of_range_play_panics : playerPlaysChecked b1 4 = none := by rfl

/-- C2 counterexample: `playerPlays` immediately followed by undo does not
return success from every reachable state — `b1.canUndo` is false at the
start of a Beginner game, so the undo fails; and even where undo succeeds
(`t6`, after a finalized CPU capture) the raw `tableCards` array is not
bit-for-bit restored: the undo nil-out loop clears stale entries beyond
the logical pile that were present before the play. -/
theorem c2_undo_counterexample :
    b1.playerCards.getD 0 none = some (NewCard "Five" "Hearts" "5") ∧
    (undoImplementation (playerPlays b1 0)).1 = false ∧
    t6.canUndo = true ∧ (t6.playerCards.getD 2 none).isSome = true ∧
    (undoImplementation (playerPlays t6 2)).1 = true ∧
    (undoImplementation (playerPlays t6 2)).2.tableCards ≠ t6.tableCards := by
  refine ⟨rfl, rfl, rfl, rfl, rfl,
    fun h => absurd (congrArg (fun l => l.getD 1 none) h) (by decide)⟩

/-- C4 (amended): `cpuPlays` is a no-op whenever the CPU hand is entirely
empty, in any game state — the emptiness check is the only guard, there is
no turn-state check (see the counterexample for the mutation side). -/
theorem c4_cpu_plays_empty_hand_noop (c : Casino) (r : Nat)
    (h : ∀ x ∈ c.cpuCards, x = none) : cpuPlays c r = c := by
  have hany : c.cpuCards.any (fun card => card.isSome) = false := by
    rw [List.any_eq_false]
    intro x hx
    rw [h x hx]
    simp
  simp [cpuPlays, hany]

/-- C4 witness: the fresh engine has an empty CPU hand and `cpuPlays` is a
no-op on it. -/
theorem c4_cpu_plays_empty_hand_noop_witness : cpuPlays NewCasino 0 = NewCasino :=
  c4_cpu_plays_empty_hand_noop NewCasino 0 (by decide)

/-- C5 (amended): playing an empty slot leaves the state unchanged except
that, at levels other than the top tier, the undo snapshot is refreshed
with a snapshot of the current state (taken before the empty-slot check). -/
theorem c5_empty_slot_play_spec (c : Casino) (i : Nat)
    (h : c.playerCards.getD i none = none) :
    playerPlays c i =
      if c.level ≠ LevelAdvanced then { c with undoState := mkUndoSnapshot c } else c := by
  have h' : c.playerCards[i]?.getD none = none := by
    rw [← List.getD_eq_getElem?_getD]
    exact h
  by_cases hl : c.level = LevelAdvanced <;> simp [playerPlays, hl, h']

/-- C5 witness: on the fresh engine (all slots empty, level not selected)
an empty-slot play only refreshes the snapshot. -/
theorem c5_empty_slot_play_spec_witness :
    playerPlays NewCasino 0 =
      if NewCasino.level ≠ LevelAdvanced then
        { NewCasino with undoState := mkUndoSnapshot NewCasino }
      else NewCasino :=
  c5_empty_slot_play_spec NewCasino 0 (by decide)

/-- C9 (amended): starting without a level always fails, but the engine is
left unchanged only from `StateNotStarted`; from any other game state it
is first reset (which also clears the level), so the failing call leaves
the cleared engine behind. -/
theorem c9_start_game_no_level_spec (swaps : Nat → Nat) (c : Casino)
    (h : c.level = LevelNotSelected) :
    StartGame swaps c =
      (false, if c.gameState = StateNotStarted then c else resetGameInternal c) := by
  by_cases hg : c.gameState = StateNotStarted <;>
    simp [StartGame, hg, h, resetGameInternal]

/-- C9 witness: on the fresh engine the failing `StartGame` changes nothing. -/
theorem c9_start_game_no_level_spec_witness :
    StartGame identSwaps NewCasino =
      (false, if NewCasino.gameState = StateNotStarted then NewCasino
              else resetGameInternal NewCasino) :=
  c9_start_game_no_level_spec identSwaps NewCasino (by decide)

/-- C10 (amended): for in-range slot indices the indexed access cannot
panic — the checked call agrees with the total embedding, whose empty-slot
branch returns cleanly (`c5_empty_slot_play_spec`). -/
theorem c10_in_range_play_no_panic (c : Casino) (i : Nat)
    (hi : i < 4) (hlen : c.playerCards.length = 4) :
    playerPlaysChecked c i = some (playerPlays c i) := by
  rw [playerPlaysChecked, hlen, if_pos hi]

/-- C10 witness: slot 0 of the started Beginner game is accessed safely. -/
theorem c10_in_range_play_no_panic_witness :
    playerPlaysChecked b1 0 = some (playerPlays b1 0) :=
  c10_in_range_play_no_panic b1 0 (by decide) (by rfl)

theorem pointStep_eq (point : Nat) (oc : Option Card) :
    pointStep point oc = point + (match oc with | none => 0 | some card => specCardScore card) := by
  match oc with
  | none => rfl
  | some card =>
    unfold pointStep
    split <;> (try split) <;> simp_all [specCardScore] <;> split <;> simp_all

theorem pointStep_eq_optScore (point : Nat) (oc : Option Card) :
    pointStep point oc = point + optScore oc := by
  rw [pointStep_eq]
  cases oc <;> rfl

theorem tableSum_aux (l : List (Option Card)) :
    ∀ n a : Nat,
      (List.range n).foldl (fun point i => pointStep point (l.getD i none)) a
        = a + ((l.take n).map optScore).sum := by
  intro n
  induction n with
  | zero => intro a; simp
  | succ n ih =>
    intro a
    rw [List.range_succ, List.foldl_append]
    rw [List.foldl_cons, List.foldl_nil, ih a, pointStep_eq_optScore]
    rw [List.take_succ, List.map_append, List.sum_append]
    rw [List.getD_eq_getElem?_getD]
    cases h : l[n]? with
    | none => simp [optScore]
    | some oc => simp only [Option.getD_some, Option.toList_some, List.map_cons,
        List.map_nil, List.sum_cons, List.sum_nil]; omega

/-- The source's table-pile loop agrees with the spec's per-card sum. -/
theorem pointCalculator_eq_sum (c : Casino) :
    pointCalculator c = ((c.tableCards.take c.cardsOnTable).map optScore).sum := by
  rw [pointCalculator]
  have := tableSum_aux c.tableCards c.cardsOnTable 0
  simpa using this

theorem sum_optScore_eq_filterMap (l : List (Option Card)) :
    (l.map optScore).sum = ((l.filterMap id).map specCardScore).sum := by
  induction l with
  | nil => rfl
  | cons hd tl ih => cases hd <;> simp [optScore, ih]

/-- C8: the Scoring Calculator returns, for every pile, the sum of the
spec's per-card table (1 per Jack, 1 per Ace, 2 for the Two of Clubs, 3
for the Ten of Diamonds, 0 otherwise) over the cards present on the pile;
and the concrete pile of one Ace, one Jack, the Two of Clubs and the Ten
of Diamonds scores 7. -/
theorem c8_scoring_table :
    (∀ c : Casino,
      pointCalculator c =
        (((c.tableCards.take c.cardsOnTable).filterMap id).map specCardScore).sum) ∧
    pointCalculator c8Example = 7 := by
  constructor
  · intro c
    rw [pointCalculator_eq_sum, sum_optScore_eq_filterMap]
  · rfl

/-- The Scoring Calculator reads only the table pile. -/
theorem pointCalculator_congr (a b : Casino)
    (h1 : a.tableCards = b.tableCards) (h2 : a.cardsOnTable = b.cardsOnTable) :
    pointCalculator a = pointCalculator b := by
  simp [pointCalculator, h1, h2]

/-- What the capture branch awards, by the branch conditions of the code. -/
theorem captureBranch_spec (c : Casino) (top second : Option Card) (pid : PlayerID) :
    (captureBranch c top second pid).gameState = StatePileCaptured ∧
    (captureBranch c top second pid).lastScorer = pid ∧
    captureAward c (captureBranch c top second pid) pid
      (if c.cardsOnTable = 2 ∧ optFace top = optFace second then
         (if optFace top = "Jack" then 20 else 10)
       else pointCalculator c)
      (if c.cardsOnTable = 2 ∧ optFace top = optFace second then 2 else c.cardsOnTable) := by
  by_cases hb2 : c.cardsOnTable = 2 <;>
    by_cases hfe : optFace top = optFace second <;>
    by_cases hj : optFace top = "Jack" <;>
    by_cases hp : pid = Player <;>
    cases hh : c.initialHiddenCards <;>
    simp_all [captureBranch, captureAward, pointCalculator]

/-- The AI-memory update touches nothing the capture logic reads. -/
theorem updateMemory_frame (c : Casino) (pc : Card) :
    (updateMemory c pc).tableCards = c.tableCards ∧
    (updateMemory c pc).cardsOnTable = c.cardsOnTable ∧
    (updateMemory c pc).playerPoint = c.playerPoint ∧
    (updateMemory c pc).cpuPoint = c.cpuPoint ∧
    (updateMemory c pc).cardsCollectedByPlayer = c.cardsCollectedByPlayer ∧
    (updateMemory c pc).cardsCollectedByCPU = c.cardsCollectedByCPU ∧
    (updateMemory c pc).initialHiddenCards = c.initialHiddenCards ∧
    (updateMemory c pc).playerCards = c.playerCards ∧
    (updateMemory c pc).cpuCards = c.cpuCards ∧
    (updateMemory c pc).undoState = c.undoState ∧
    (updateMemory c pc).canUndo = c.canUndo ∧
    (updateMemory c pc).gameState = c.gameState ∧
    (updateMemory c pc).isInitialPile = c.isInitialPile ∧
    (updateMemory c pc).level = c.level := by
  unfold updateMemory
  split <;> (try split) <;> simp

/-- The award only depends on the pre-state through its four counters. -/
theorem captureAward_congr (cl cr s : Casino) (pid : PlayerID) (p k : Nat)
    (h1 : cl.playerPoint = cr.playerPoint) (h2 : cl.cpuPoint = cr.cpuPoint)
    (h3 : cl.cardsCollectedByPlayer = cr.cardsCollectedByPlayer)
    (h4 : cl.cardsCollectedByCPU = cr.cardsCollectedByCPU) :
    captureAward cl s pid p k ↔ captureAward cr s pid p k := by
  simp [captureAward, h1, h2, h3, h4]

/-- When the capture condition holds, `processTurn` defers to the capture
branch on the placed pile. -/
theorem processTurn_capture_eq (c : Casino) (playedCard : Card) (playerID : PlayerID)
    (hlen : c.cardsOnTable < c.tableCards.length)
    (hpos : 0 < c.cardsOnTable)
    (hcap : playedCard.GetFace = optFace (c.tableCards.getD (c.cardsOnTable - 1) none) ∨
            playedCard.GetFace = "Jack") :
    processTurn c playedCard playerID =
      captureBranch
        { updateMemory c playedCard with
            tableCards := c.tableCards.set c.cardsOnTable (some playedCard),
            cardsOnTable := c.cardsOnTable + 1 }
        (some playedCard) (c.tableCards.getD (c.cardsOnTable - 1) none) playerID := by
  obtain ⟨hm1, hm2, -⟩ := updateMemory_frame c playedCard
  have htop : (c.tableCards.set c.cardsOnTable (some playedCard)).getD
      (c.cardsOnTable + 1 - 1) none = some playedCard := by
    rw [List.getD_eq_getElem?_getD, Nat.add_sub_cancel, List.getElem?_set_self hlen,
      Option.getD_some]
  have hsec : (c.tableCards.set c.cardsOnTable (some playedCard)).getD
      (c.cardsOnTable + 1 - 2) none = c.tableCards.getD (c.cardsOnTable - 1) none := by
    rw [List.getD_eq_getElem?_getD, List.getD_eq_getElem?_getD,
      List.getElem?_set_ne (by omega : c.cardsOnTable ≠ c.cardsOnTable + 1 - 2)]
    rw [show c.cardsOnTable + 1 - 2 = c.cardsOnTable - 1 from by omega]
  unfold processTurn
  dsimp only
  rw [hm1, hm2]
  rw [if_pos (by omega : c.cardsOnTable + 1 > 1)]
  rw [htop, hsec]
  have hcap2 : optFace (some playedCard) = optFace (c.tableCards.getD (c.cardsOnTable - 1) none) ∨
      optFace (some playedCard) = "Jack" := by simpa [optFace] using hcap
  rw [if_pos hcap2]

/-- C7: a play that triggers a capture is classified as the code does it:
a 2-card matching pile awards 10 points (20 when the pair is Jacks) and 2
collected cards; every other capture (larger pile, or a Jack on a
non-matching top card) awards the Scoring Calculator's sum over the whole
placed pile and credits all its cards. -/
theorem c7_capture_classification (c : Casino) (playedCard : Card) (playerID : PlayerID)
    (hlen : c.cardsOnTable < c.tableCards.length)
    (hpos : 0 < c.cardsOnTable)
    (hcap : playedCard.GetFace = optFace (c.tableCards.getD (c.cardsOnTable - 1) none) ∨
            playedCard.GetFace = "Jack") :
    (processTurn c playedCard playerID).gameState = StatePileCaptured ∧
    (processTurn c playedCard playerID).lastScorer = playerID ∧
    ((c.cardsOnTable = 1 ∧
        playedCard.GetFace = optFace (c.tableCards.getD (c.cardsOnTable - 1) none) ∧
        playedCard.GetFace ≠ "Jack") →
      captureAward c (processTurn c playedCard playerID) playerID 10 2) ∧
    ((c.cardsOnTable = 1 ∧
        playedCard.GetFace = optFace (c.tableCards.getD (c.cardsOnTable - 1) none) ∧
        playedCard.GetFace = "Jack") →
      captureAward c (processTurn c playedCard playerID) playerID 20 2) ∧
    (¬(c.cardsOnTable = 1 ∧
        playedCard.GetFace = optFace (c.tableCards.getD (c.cardsOnTable - 1) none)) →
      captureAward c (processTurn c playedCard playerID) playerID
        (pointCalculator
          { c with tableCards := c.tableCards.set c.cardsOnTable (some playedCard),
                   cardsOnTable := c.cardsOnTable + 1 })
        (c.cardsOnTable + 1)) := by
  obtain ⟨hm1, hm2, hm3, hm4, hm5, hm6, -⟩ := updateMemory_frame c playedCard
  rw [processTurn_capture_eq c playedCard playerID hlen hpos hcap]
  obtain ⟨hg, hs, haw⟩ := captureBranch_spec
    { updateMemory c playedCard with
        tableCards := c.tableCards.set c.cardsOnTable (some playedCard),
        cardsOnTable := c.cardsOnTable + 1 }
    (some playedCard) (c.tableCards.getD (c.cardsOnTable - 1) none) playerID
  refine ⟨hg, hs, ?_, ?_, ?_⟩
  · rintro ⟨h1, h2, h3⟩
    have haw' := haw
    dsimp only [optFace] at haw'
    rw [if_pos ⟨by omega, h2⟩, if_neg h3, if_pos ⟨by omega, h2⟩] at haw'
    exact (captureAward_congr _ c _ playerID 10 2 hm3 hm4 hm5 hm6).mp haw'
  · rintro ⟨h1, h2, h3⟩
    have haw' := haw
    dsimp only [optFace] at haw'
    rw [if_pos ⟨by omega, h2⟩, if_pos h3, if_pos ⟨by omega, h2⟩] at haw'
    exact (captureAward_congr _ c _ playerID 20 2 hm3 hm4 hm5 hm6).mp haw'
  · intro hC
    have haw' := haw
    dsimp only [optFace] at haw'
    rw [if_neg (fun hand => hC ⟨by omega, hand.2⟩),
        if_neg (fun hand => hC ⟨by omega, hand.2⟩)] at haw'
    rw [pointCalculator_congr
      { updateMemory c playedCard with
          tableCards := c.tableCards.set c.cardsOnTable (some playedCard),
          cardsOnTable := c.cardsOnTable + 1 }
      { c with tableCards := c.tableCards.set c.cardsOnTable (some playedCard),
               cardsOnTable := c.cardsOnTable + 1 } rfl rfl] at haw'
    exact (captureAward_congr _ c _ playerID _ _ hm3 hm4 hm5 hm6).mp haw'

/-- C7 witness: the classification instantiated on the concrete 2-card
matching capture `c7w`. -/
theorem c7_capture_classification_witness :
    (processTurn c7w (NewCard "Seven" "Spades" "46") Player).gameState = StatePileCaptured ∧
    (processTurn c7w (NewCard "Seven" "Spades" "46") Player).lastScorer = Player ∧
    ((c7w.cardsOnTable = 1 ∧
        (NewCard "Seven" "Spades" "46").GetFace =
          optFace (c7w.tableCards.getD (c7w.cardsOnTable - 1) none) ∧
        (NewCard "Seven" "Spades" "46").GetFace ≠ "Jack") →
      captureAward c7w (processTurn c7w (NewCard "Seven" "Spades" "46") Player) Player 10 2) ∧
    ((c7w.cardsOnTable = 1 ∧
        (NewCard "Seven" "Spades" "46").GetFace =
          optFace (c7w.tableCards.getD (c7w.cardsOnTable - 1) none) ∧
        (NewCard "Seven" "Spades" "46").GetFace = "Jack") →
      captureAward c7w (processTurn c7w (NewCard "Seven" "Spades" "46") Player) Player 20 2) ∧
    (¬(c7w.cardsOnTable = 1 ∧
        (NewCard "Seven" "Spades" "46").GetFace =
          optFace (c7w.tableCards.getD (c7w.cardsOnTable - 1) none)) →
      captureAward c7w (processTurn c7w (NewCard "Seven" "Spades" "46") Player) Player
        (pointCalculator
          { c7w with
              tableCards := c7w.tableCards.set c7w.cardsOnTable
                (some (NewCard "Seven" "Spades" "46")),
              cardsOnTable := c7w.cardsOnTable + 1 })
        (c7w.cardsOnTable + 1)) :=
  c7_capture_classification c7w (NewCard "Seven" "Spades" "46") Player
    (by decide) (by decide) (Or.inl (by decide))

/-- Go `copy` keeps the destination length. -/
theorem goCopy_length {α : Type} (dst src : List α) :
    (goCopy dst src).length = dst.length := by
  simp [goCopy]
  omega

/-- Go `copy` from a source no longer than the destination. -/
theorem goCopy_of_le {α : Type} (dst src : List α)
    (h : src.length ≤ dst.length) : goCopy dst src = src ++ dst.drop src.length := by
  rw [goCopy, List.take_of_length_le h, min_eq_left h]

/-- Go `copy` between equal-length slices replaces the destination. -/
theorem goCopy_eq_of_length {α : Type} (dst src : List α)
    (h : src.length = dst.length) : goCopy dst src = src := by
  rw [goCopy_of_le dst src (le_of_eq h), h, List.drop_length, List.append_nil]

/-- After a Go `copy`, the destination starts with the source. -/
theorem goCopy_take {α : Type} (dst src : List α)
    (h : src.length ≤ dst.length) : (goCopy dst src).take src.length = src := by
  rw [goCopy_of_le dst src h, List.take_left]

/-- Setting at or beyond an index does not change the earlier entries. -/
theorem take_set_of_le {α : Type} (l : List α) (i n : Nat) (a : α)
    (h : n ≤ i) : (l.set i a).take n = l.take n := by
  ext1 m
  rw [List.getElem?_take, List.getElem?_take]
  split
  · rw [List.getElem?_set_ne (by omega)]
  · rfl

/-- The nil-out loop keeps the slice length. -/
theorem nilOutFromFuel_length (fuel : Nat) :
    ∀ (l : List (Option Card)) (i : Nat), (nilOutFromFuel fuel l i).length = l.length := by
  induction fuel with
  | zero => intro l i; rfl
  | succ fuel ih =>
    intro l i
    rw [nilOutFromFuel]
    split
    · rfl
    · rw [ih, List.length_set]

/-- The nil-out loop never touches entries before its start index. -/
theorem nilOutFromFuel_take (fuel : Nat) :
    ∀ (l : List (Option Card)) (i n : Nat), n ≤ i →
      (nilOutFromFuel fuel l i).take n = l.take n := by
  induction fuel with
  | zero => intro l i n _; rfl
  | succ fuel ih =>
    intro l i n h
    rw [nilOutFromFuel]
    split
    · rfl
    · rw [ih _ _ _ (by omega), take_set_of_le _ _ _ _ h]

/-- The undo nil-out loop preserves the logical (restored) prefix. -/
theorem nilOutFrom_take (l : List (Option Card)) (i n : Nat) (h : n ≤ i) :
    (nilOutFrom l i).take n = l.take n :=
  nilOutFromFuel_take l.length l i n h

/-- The capture branch leaves hands, pile storage, undo state and memory alone. -/
theorem captureBranch_frame (c : Casino) (top second : Option Card) (pid : PlayerID) :
    (captureBranch c top second pid).tableCards = c.tableCards ∧
    (captureBranch c top second pid).cardsOnTable = c.cardsOnTable ∧
    (captureBranch c top second pid).playerCards = c.playerCards ∧
    (captureBranch c top second pid).cpuCards = c.cpuCards ∧
    (captureBranch c top second pid).undoState = c.undoState ∧
    (captureBranch c top second pid).canUndo = c.canUndo ∧
    (captureBranch c top second pid).currentHandMemory = c.currentHandMemory ∧
    (captureBranch c top second pid).currentHandMemoryLength = c.currentHandMemoryLength ∧
    (captureBranch c top second pid).level = c.level := by
  by_cases hb2 : c.cardsOnTable = 2 <;>
    by_cases hfe : optFace top = optFace second <;>
    by_cases hj : optFace top = "Jack" <;>
    by_cases hp : pid = Player <;>
    cases hh : c.initialHiddenCards <;>
    simp_all [captureBranch]

/-- Handing the turn over only changes the game state. -/
theorem endTurn_frame (c : Casino) (pid : PlayerID) :
    (endTurn c pid).tableCards = c.tableCards ∧
    (endTurn c pid).cardsOnTable = c.cardsOnTable ∧
    (endTurn c pid).playerCards = c.playerCards ∧
    (endTurn c pid).cpuCards = c.cpuCards ∧
    (endTurn c pid).undoState = c.undoState ∧
    (endTurn c pid).canUndo = c.canUndo ∧
    (endTurn c pid).currentHandMemory = c.currentHandMemory ∧
    (endTurn c pid).currentHandMemoryLength = c.currentHandMemoryLength ∧
    (endTurn c pid).level = c.level := by
  by_cases hp : pid = Player <;> simp [endTurn, hp]

/-- What one processed turn does to the fields the undo feature restores. -/
theorem processTurn_fields (c : Casino) (pc : Card) (pid : PlayerID) :
    (processTurn c pc pid).undoState = c.undoState ∧
    (processTurn c pc pid).canUndo = c.canUndo ∧
    (processTurn c pc pid).playerCards = c.playerCards ∧
    (processTurn c pc pid).cpuCards = c.cpuCards ∧
    (processTurn c pc pid).tableCards = c.tableCards.set c.cardsOnTable (some pc) ∧
    (processTurn c pc pid).cardsOnTable = c.cardsOnTable + 1 ∧
    (processTurn c pc pid).level = c.level ∧
    (processTurn c pc pid).currentHandMemory = (updateMemory c pc).currentHandMemory ∧
    (processTurn c pc pid).currentHandMemoryLength = (updateMemory c pc).currentHandMemoryLength := by
  obtain ⟨um1, um2, -, -, -, -, -, um8, um9, um10, um11, -, -, um14⟩ :=
    updateMemory_frame c pc
  unfold processTurn
  dsimp only
  split
  · split
    · obtain ⟨f1, f2, f3, f4, f5, f6, f7, f8, f9⟩ := captureBranch_frame _ _ _ pid
      exact ⟨f5.trans um10, f6.trans um11, f3.trans um8, f4.trans um9,
        f1.trans (by rw [um1, um2]), f2.trans (by rw [um2]),
        f9.trans um14, f7, f8⟩
    · obtain ⟨f1, f2, f3, f4, f5, f6, f7, f8, f9⟩ := endTurn_frame _ pid
      exact ⟨f5.trans um10, f6.trans um11, f3.trans um8, f4.trans um9,
        f1.trans (by rw [um1, um2]), f2.trans (by rw [um2]),
        f9.trans um14, f7, f8⟩
  · obtain ⟨f1, f2, f3, f4, f5, f6, f7, f8, f9⟩ := endTurn_frame _ pid
    exact ⟨f5.trans um10, f6.trans um11, f3.trans um8, f4.trans um9,
      f1.trans (by rw [um1, um2]), f2.trans (by rw [um2]),
      f9.trans um14, f7, f8⟩

/-- The memory update appends: length and the old prefix are preserved. -/
theorem updateMemory_memory (c : Casino) (pc : Card) :
    (updateMemory c pc).currentHandMemory.length = c.currentHandMemory.length ∧
    (updateMemory c pc).currentHandMemory.take c.currentHandMemoryLength =
      c.currentHandMemory.take c.currentHandMemoryLength := by
  unfold updateMemory
  split <;> (try split) <;>
    simp [List.length_set, take_set_of_le _ _ _ _ (le_refl _)]

/-- What a successful (occupied-slot, non-top-level) player move does to the
fields the undo feature restores. -/
theorem playerPlays_fields (c : Casino) (i : Nat) (pc : Card)
    (hlvl : c.level ≠ LevelAdvanced)
    (hget : c.playerCards.getD i none = some pc) :
    (playerPlays c i).undoState = mkUndoSnapshot c ∧
    (playerPlays c i).canUndo = c.canUndo ∧
    (playerPlays c i).playerCards = c.playerCards.set i none ∧
    (playerPlays c i).cpuCards = c.cpuCards ∧
    (playerPlays c i).tableCards = c.tableCards.set c.cardsOnTable (some pc) ∧
    (playerPlays c i).cardsOnTable = c.cardsOnTable + 1 ∧
    (playerPlays c i).currentHandMemory.length = c.currentHandMemory.length := by
  obtain ⟨pt1, pt2, pt3, pt4, pt5, pt6, pt7, pt8, pt9⟩ :=
    processTurn_fields
      { c with undoState := mkUndoSnapshot c, lastPlayedPlayerCard := (i : Int),
               playerCards := c.playerCards.set i none }
      pc Player
  obtain ⟨mm1, mm2⟩ :=
    updateMemory_memory
      { c with undoState := mkUndoSnapshot c, lastPlayedPlayerCard := (i : Int),
               playerCards := c.playerCards.set i none }
      pc
  unfold playerPlays
  rw [if_pos hlvl]
  dsimp only
  rw [hget]
  dsimp only
  split <;>
    exact ⟨pt1, pt2, pt3, pt4, pt5, pt6, pt8 ▸ mm1⟩

/-- C2 (amended): from any state at a non-top tier with slot `i` occupied
and undo currently permitted (`canUndo`, set by a computer play), playing
then undoing succeeds and restores the hands, scores, collection counts,
last scorer, and the logical table pile and current-hand memory (their
counters and the entries below them); a second immediate undo fails and
changes nothing. -/
theorem c2_undo_once_roundtrip (c : Casino) (i : Nat)
    (hlvl : c.level ≠ LevelAdvanced)
    (hslot : (c.playerCards.getD i none).isSome = true)
    (hcu : c.canUndo = true)
    (htab : c.cardsOnTable ≤ c.tableCards.length)
    (hmem : c.currentHandMemoryLength ≤ c.currentHandMemory.length) :
    (undoImplementation (playerPlays c i)).1 = true ∧
    (undoImplementation (playerPlays c i)).2.playerCards = c.playerCards ∧
    (undoImplementation (playerPlays c i)).2.cpuCards = c.cpuCards ∧
    (undoImplementation (playerPlays c i)).2.playerPoint = c.playerPoint ∧
    (undoImplementation (playerPlays c i)).2.cpuPoint = c.cpuPoint ∧
    (undoImplementation (playerPlays c i)).2.cardsCollectedByPlayer = c.cardsCollectedByPlayer ∧
    (undoImplementation (playerPlays c i)).2.cardsCollectedByCPU = c.cardsCollectedByCPU ∧
    (undoImplementation (playerPlays c i)).2.lastScorer = c.lastScorer ∧
    (undoImplementation (playerPlays c i)).2.cardsOnTable = c.cardsOnTable ∧
    (undoImplementation (playerPlays c i)).2.tableCards.take c.cardsOnTable =
      c.tableCards.take c.cardsOnTable ∧
    (undoImplementation (playerPlays c i)).2.currentHandMemoryLength =
      c.currentHandMemoryLength ∧
    (undoImplementation (playerPlays c i)).2.currentHandMemory.take
      c.currentHandMemoryLength = c.currentHandMemory.take c.currentHandMemoryLength ∧
    undoImplementation (undoImplementation (playerPlays c i)).2 =
      (false, (undoImplementation (playerPlays c i)).2) := by
  obtain ⟨pc, hget⟩ := Option.isSome_iff_exists.mp hslot
  obtain ⟨f1, f2, f3, f4, f5, f6, f7⟩ := playerPlays_fields c i pc hlvl hget
  unfold undoImplementation
  rw [f1, f2, hcu]
  rw [if_neg (by simp)]
  dsimp only [mkUndoSnapshot]
  refine ⟨rfl, ?_, ?_, rfl, rfl, rfl, rfl, rfl, rfl, ?_, rfl, ?_, ?_⟩
  · rw [f3]
    exact goCopy_eq_of_length _ _ (by rw [List.length_set])
  · rw [f4]
    exact goCopy_eq_of_length _ _ rfl
  · rw [nilOutFrom_take _ _ _ (le_refl _)]
    have hsl : (c.tableCards.take c.cardsOnTable).length = c.cardsOnTable := by
      rw [List.length_take, Nat.min_eq_left htab]
    calc ((goCopy (playerPlays c i).tableCards (c.tableCards.take c.cardsOnTable)).take
            c.cardsOnTable)
        = (goCopy (playerPlays c i).tableCards (c.tableCards.take c.cardsOnTable)).take
            (c.tableCards.take c.cardsOnTable).length := by rw [hsl]
      _ = c.tableCards.take c.cardsOnTable := by
            apply goCopy_take
            rw [hsl, f5, List.length_set]
            exact htab
  · rw [nilOutFrom_take _ _ _ (le_refl _)]
    have hsl : (c.currentHandMemory.take c.currentHandMemoryLength).length =
        c.currentHandMemoryLength := by
      rw [List.length_take, Nat.min_eq_left hmem]
    calc ((goCopy (playerPlays c i).currentHandMemory
            (c.currentHandMemory.take c.currentHandMemoryLength)).take
            c.currentHandMemoryLength)
        = (goCopy (playerPlays c i).currentHandMemory
            (c.currentHandMemory.take c.currentHandMemoryLength)).take
            (c.currentHandMemory.take c.currentHandMemoryLength).length := by rw [hsl]
      _ = c.currentHandMemory.take c.currentHandMemoryLength := by
            apply goCopy_take
            rw [hsl, f7]
            exact hmem
  · rw [if_pos rfl]

/-- C2 witness: the roundtrip instantiated at the reachable Beginner state
`t6` (after a finalized CPU capture, `canUndo` is set) and slot 2. -/
theorem c2_undo_once_roundtrip_witness :
    (undoImplementation (playerPlays t6 2)).1 = true ∧
    (undoImplementation (playerPlays t6 2)).2.playerCards = t6.playerCards ∧
    (undoImplementation (playerPlays t6 2)).2.cpuCards = t6.cpuCards ∧
    (undoImplementation (playerPlays t6 2)).2.playerPoint = t6.playerPoint ∧
    (undoImplementation (playerPlays t6 2)).2.cpuPoint = t6.cpuPoint ∧
    (undoImplementation (playerPlays t6 2)).2.cardsCollectedByPlayer = t6.cardsCollectedByPlayer ∧
    (undoImplementation (playerPlays t6 2)).2.cardsCollectedByCPU = t6.cardsCollectedByCPU ∧
    (undoImplementation (playerPlays t6 2)).2.lastScorer = t6.lastScorer ∧
    (undoImplementation (playerPlays t6 2)).2.cardsOnTable = t6.cardsOnTable ∧
    (undoImplementation (playerPlays t6 2)).2.tableCards.take t6.cardsOnTable =
      t6.tableCards.take t6.cardsOnTable ∧
    (undoImplementation (playerPlays t6 2)).2.currentHandMemoryLength =
      t6.currentHandMemoryLength ∧
    (undoImplementation (playerPlays t6 2)).2.currentHandMemory.take
      t6.currentHandMemoryLength = t6.currentHandMemory.take t6.currentHandMemoryLength ∧
    undoImplementation (undoImplementation (playerPlays t6 2)).2 =
      (false, (undoImplementation (playerPlays t6 2)).2) :=
  c2_undo_once_roundtrip t6 2 (by decide) (by decide) (by decide) (by decide) (by decide)
